import Mathlib

/-!
# DRM_VerMap — verification of the polling/persistence/broadcast core

Shallow embedding of the repository's four modules:

* `src/digirm.py` — the Coordinate Normalizer `parse_latlon` (plus models of
  Python truthiness, `float()` on strings, and a `json.loads` subset);
* `src/db.py` — the `locations` table keyed by `PRIMARY KEY (device_id, ts)`
  and `insert_locations` (INSERT OR IGNORE, returning the change count of the
  per-call connection);
* `src/sse.py` — `ChannelBroker` with `subscribe`, `unsubscribe`, `publish`
  and the drop-oldest overflow on a bounded per-subscriber queue;
* `src/server.py` — `PollerManager.ensure_poller` and the body of the
  `_poll_device` loop, modelled as one atomic iteration producing a new
  state and an event trace.

Python dicts become association lists, asyncio queues become lists of
pending messages, floats become rationals, and each `async` critical
section (everything the code runs under a lock, or between two `await`
suspension points we care about) becomes one atomic step of a transition
function, so that interleavings of concurrent callers are exactly the
sequences of steps.
-/

set_option maxHeartbeats 1000000

namespace DRM

/-! ## Python-value model (for `parse_latlon` inputs) -/

/-- A Python/JSON value as it can reach `parse_latlon`: `None`, booleans,
numbers (floats modelled as rationals), strings, lists and dicts. -/
inductive Value where
  | vnull
  | vbool (b : Bool)
  | vnum (q : ℚ)
  | vstr (s : String)
  | varr (elems : List Value)
  | vdict (fields : List (String × Value))

/-- Python truthiness: `None`, `False`, `0`, `""`, `[]`, `{}` are falsy. -/
def truthy : Value → Bool
  | .vnull => false
  | .vbool b => b
  | .vnum q => decide (q ≠ 0)
  | .vstr s => decide (s ≠ "")
  | .varr l => !l.isEmpty
  | .vdict l => !l.isEmpty

/-- `d.get(k)` on a dict (association list; first binding wins). -/
def dictGet (fields : List (String × Value)) (k : String) : Option Value :=
  (fields.find? (fun p => p.1 == k)).map Prod.snd

/-- Python `a or b` where `a`, `b` are `d.get(...)` results (`none` = `None`):
returns `a` when `a` is truthy, else `b`.  Note that a present-but-falsy
value (such as the number `0`) makes `a or b` fall through to `b`. -/
def pyOr (a b : Option Value) : Option Value :=
  match a with
  | some v => if truthy v then some v else b
  | none => b

/-- Numeric value of a digit string (most significant first). -/
def natOfDigits (cs : List Char) : ℕ :=
  cs.foldl (fun a c => a * 10 + (c.toNat - 48)) 0

def allDigits (cs : List Char) : Bool := cs.all Char.isDigit

/-- Python `s.strip()`: drop whitespace from both ends (implemented over the
character list so that proofs can evaluate it). -/
def pyStrip (s : String) : String :=
  String.mk (((s.toList.dropWhile Char.isWhitespace).reverse.dropWhile
    Char.isWhitespace).reverse)

/-- Python `s.startswith("{")`. -/
def startsWithBrace (s : String) : Bool :=
  match s.toList with
  | c :: _ => c = '\x7b'
  | [] => false

/-- Model of Python `float(s)` on a string: surrounding whitespace stripped,
optional sign, decimal digits with an optional fractional part (the inputs
the repository feeds it; exponents and the inf/nan words are not modelled).
`none` models `ValueError`. -/
def parseDecimal (s : String) : Option ℚ :=
  let cs0 := (pyStrip s).toList
  let signed : Bool × List Char :=
    match cs0 with
    | '-' :: rest => (true, rest)
    | '+' :: rest => (false, rest)
    | _ => (false, cs0)
  let neg := signed.1
  match signed.2.splitOn '.' with
  | [intPart] =>
      if intPart ≠ [] ∧ allDigits intPart then
        let v : ℚ := natOfDigits intPart
        some (if neg then -v else v)
      else none
  | [intPart, fracPart] =>
      if (intPart ≠ [] ∨ fracPart ≠ []) ∧ allDigits intPart ∧ allDigits fracPart then
        let v : ℚ :=
          (natOfDigits intPart : ℚ) + (natOfDigits fracPart : ℚ) / (10 : ℚ) ^ fracPart.length
        some (if neg then -v else v)
      else none
  | _ => none

/-- Model of Python `float(x)` on a value: numbers pass through, booleans
coerce to 0/1, strings go through `parseDecimal`; everything else raises
(`none`). -/
def pyFloat : Value → Option ℚ
  | .vnum q => some q
  | .vbool b => some (if b then 1 else 0)
  | .vstr s => parseDecimal s
  | _ => none

/-! ## `json.loads` model (the subset the repository can feed it) -/

def skipWs : List Char → List Char
  | c :: cs => if c = ' ' ∨ c = '\t' ∨ c = '\n' ∨ c = '\r' then skipWs cs else c :: cs
  | [] => []

/-- Consume a JSON string body up to the closing quote (no escape sequences;
the repository only round-trips plain keys and values). -/
def takeStringChars : List Char → Option (List Char × List Char)
  | [] => none
  | c :: cs =>
    if c = '"' then some ([], cs)
    else
      match takeStringChars cs with
      | some (acc, rest) => some (c :: acc, rest)
      | none => none

/-- A JSON number: optional minus, digits, optional fraction. -/
def parseJsonNumber (cs : List Char) : Option (Value × List Char) :=
  let signed : Bool × List Char :=
    match cs with
    | '-' :: rest => (true, rest)
    | _ => (false, cs)
  let neg := signed.1
  let spanned := signed.2.span Char.isDigit
  if spanned.1 = [] then none
  else
    match spanned.2 with
    | '.' :: cs3 =>
      let fr := cs3.span Char.isDigit
      if fr.1 = [] then none
      else
        let v : ℚ := (natOfDigits spanned.1 : ℚ) + (natOfDigits fr.1 : ℚ) / (10 : ℚ) ^ fr.1.length
        some (.vnum (if neg then -v else v), fr.2)
    | rest =>
        some (.vnum (if neg then -(natOfDigits spanned.1 : ℚ) else (natOfDigits spanned.1 : ℚ)), rest)

mutual

/-- Fuel-indexed JSON value parser (fuel bounds nesting depth). -/
def parseJsonVal : ℕ → List Char → Option (Value × List Char)
  | 0, _ => none
  | fuel + 1, cs =>
    match skipWs cs with
    | [] => none
    | c :: rest =>
      if c = '\x7b' then
        match skipWs rest with
        | '\x7d' :: rest2 => some (.vdict [], rest2)
        | rest2 =>
          match parseJsonMembers fuel rest2 with
          | some (fields, rest3) => some (.vdict fields, rest3)
          | none => none
      else if c = '[' then
        match skipWs rest with
        | ']' :: rest2 => some (.varr [], rest2)
        | rest2 =>
          match parseJsonElems fuel rest2 with
          | some (elems, rest3) => some (.varr elems, rest3)
          | none => none
      else if c = '"' then
        match takeStringChars rest with
        | some (body, rest2) => some (.vstr (String.mk body), rest2)
        | none => none
      else if c = 't' then
        match rest with
        | 'r' :: 'u' :: 'e' :: rest2 => some (.vbool true, rest2)
        | _ => none
      else if c = 'f' then
        match rest with
        | 'a' :: 'l' :: 's' :: 'e' :: rest2 => some (.vbool false, rest2)
        | _ => none
      else if c = 'n' then
        match rest with
        | 'u' :: 'l' :: 'l' :: rest2 => some (.vnull, rest2)
        | _ => none
      else parseJsonNumber (c :: rest)

/-- `"key" : value` members of an object, comma separated, ending at `}`. -/
def parseJsonMembers : ℕ → List Char → Option (List (String × Value) × List Char)
  | 0, _ => none
  | fuel + 1, cs =>
    match skipWs cs with
    | '"' :: rest =>
      match takeStringChars rest with
      | some (key, rest2) =>
        match skipWs rest2 with
        | ':' :: rest3 =>
          match parseJsonVal fuel rest3 with
          | some (v, rest4) =>
            match skipWs rest4 with
            | ',' :: rest5 =>
              match parseJsonMembers fuel rest5 with
              | some (fields, rest6) => some ((String.mk key, v) :: fields, rest6)
              | none => none
            | '\x7d' :: rest5 => some ([(String.mk key, v)], rest5)
            | _ => none
          | none => none
        | _ => none
      | none => none
    | _ => none

/-- Elements of an array, comma separated, ending at `]`. -/
def parseJsonElems : ℕ → List Char → Option (List Value × List Char)
  | 0, _ => none
  | fuel + 1, cs =>
    match parseJsonVal fuel cs with
    | some (v, rest) =>
      match skipWs rest with
      | ',' :: rest2 =>
        match parseJsonElems fuel rest2 with
        | some (elems, rest3) => some (v :: elems, rest3)
        | none => none
      | ']' :: rest2 => some ([v], rest2)
      | _ => none
    | none => none

end

/-- Model of `json.loads` on the JSON subset the repository exchanges:
`none` models a raised `JSONDecodeError`. -/
def json_loads (s : String) : Option Value :=
  match parseJsonVal (s.length + 1) s.toList with
  | some (v, rest) => if (skipWs rest).isEmpty then some v else none
  | none => none

/-! ## `parse_latlon` (src/digirm.py) -/

/-- The `"lat,lon"` branch: `a, b = s.split(",", 1)` — split at the first
comma; `none` when the string holds no comma. -/
def splitFirstComma : List Char → Option (List Char × List Char)
  | [] => none
  | c :: cs =>
    if c = ',' then some ([], cs)
    else
      match splitFirstComma cs with
      | some (a, b) => some (c :: a, b)
      | none => none

/-- `if "," in s: a, b = s.split(",", 1); return float(a.strip()), float(b.strip())`
(`parseDecimal` already strips), else fall to the trailing `return None`. -/
def commaParse (s : String) : Option (ℚ × ℚ) :=
  match splitFirstComma s.toList with
  | some (a, b) =>
    match parseDecimal (String.mk a), parseDecimal (String.mk b) with
    | some x, some y => some (x, y)
    | _, _ => none
  | none => none

/-- `parse_latlon`, fuel-indexed: the fuel only bounds the depth of the
string-encoded-JSON recursion (`return parse_latlon(json.loads(s))`), which
in CPython is bounded by the interpreter recursion limit. -/
def parse_latlonF : ℕ → Value → Option (ℚ × ℚ)
  | 0, _ => none
  | fuel + 1, val =>
    match val with
    | .vdict fields =>
      -- lat = val.get("lat") or val.get("latitude")
      -- lon = val.get("lon") or val.get("lng") or val.get("longitude")
      let lat := pyOr (dictGet fields "lat") (dictGet fields "latitude")
      let lon := pyOr (pyOr (dictGet fields "lon") (dictGet fields "lng"))
                      (dictGet fields "longitude")
      match lat, lon with
      | some la, some lo =>
        match pyFloat la, pyFloat lo with
        | some a, some b => some (a, b)
        | _, _ => none          -- float() raised: return None
      | _, _ => none            -- falls through; a dict is not a str
    | .vstr s0 =>
      let s := pyStrip s0
      if startsWithBrace s then
        match json_loads s with
        | some v => parse_latlonF fuel v   -- return parse_latlon(json.loads(s))
        | none => commaParse s             -- except: pass, then the comma branch
      else commaParse s
    | _ => none

/-- `parse_latlon(val)` from src/digirm.py (fuel 1000 mirrors CPython's
default recursion headroom; every input in this development needs depth 2). -/
def parse_latlon (val : Value) : Option (ℚ × ℚ) :=
  parse_latlonF 1000 val

/-! ## Durable store (src/db.py) -/

/-- One row of the `locations` table:
`(device_id, ts, lat, lon, accuracy, source)` with
`PRIMARY KEY (device_id, ts)`.  The poller writes `"stream:" ++ stream`
into `source`, which is the only place the stream name reaches storage. -/
structure LocRow where
  device_id : String
  ts : String
  lat : ℚ
  lon : ℚ
  accuracy : Option ℚ
  source : String
deriving DecidableEq, Repr

/-- Does the table already hold a row with this primary key `(device_id, ts)`? -/
def hasKey (db : List LocRow) (d t : String) : Bool :=
  db.any (fun r => r.device_id == d && r.ts == t)

/-- One `INSERT OR IGNORE` statement: ignored (no change) exactly when the
primary key `(device_id, ts)` is already present; otherwise appended,
counting as one change. -/
def insertRow (db : List LocRow) (r : LocRow) : List LocRow × ℕ :=
  if hasKey db r.device_id r.ts then (db, 0) else (db ++ [r], 1)

/-- `insert_locations(rows)` from src/db.py: `executemany` of
`INSERT OR IGNORE` over the batch in order, returning `db.total_changes`
of the per-call connection — the number of rows actually inserted by this
call (an empty batch returns 0 without touching the database). -/
def insert_locations (db : List LocRow) (rows : List LocRow) : List LocRow × ℕ :=
  rows.foldl (fun acc r =>
    let step := insertRow acc.1 r
    (step.1, acc.2 + step.2)) (db, 0)

/-! ## Association-list helpers (Python dicts keyed by channel / queue id) -/

/-- `d.get(k)` for a generic dict. -/
def alGet {κ α : Type} [DecidableEq κ] : List (κ × α) → κ → Option α
  | [], _ => none
  | p :: rest, k => if p.1 = k then some p.2 else alGet rest k

/-- `d[k] = v`: replace the binding in place if present, else append it. -/
def alSet {κ α : Type} [DecidableEq κ] : List (κ × α) → κ → α → List (κ × α)
  | [], k, v => [(k, v)]
  | p :: rest, k, v => if p.1 = k then (k, v) :: rest else p :: alSet rest k v

/-! ## Channel broker (src/sse.py) -/

/-- A broker message `{"device_id", "ts", "lat", "lon"}` as published by the
poll loop. -/
structure Msg where
  device_id : String
  ts : String
  lat : ℚ
  lon : ℚ
deriving DecidableEq, Repr

/-- The `ChannelBroker` state: `subs` is `self._subscribers`
(channel → registered queue ids, in registration order), `queues` maps each
queue id to its pending messages (oldest first), `cap` is the `maxsize`
every queue is created with (1000 in the source), and `nextQ` feeds fresh
queue identities.  Every broker method runs its registry accesses under
`self._lock`, so each method is one atomic step here. -/
structure Broker where
  cap : ℕ
  subs : List (String × List ℕ)
  queues : List (ℕ × List Msg)
  nextQ : ℕ
deriving DecidableEq, Repr

/-- `subscribe(channel)`: allocate a fresh bounded queue and append it to the
channel's list (a `defaultdict`, so an unknown channel gets an empty list
first). Returns the queue's handle. -/
def subscribe (b : Broker) (channel : String) : Broker × ℕ :=
  let qid := b.nextQ
  let cur := (alGet b.subs channel).getD []
  ({ b with
      subs := alSet b.subs channel (cur ++ [qid])
      queues := alSet b.queues qid []
      nextQ := qid + 1 }, qid)

/-- `unsubscribe(channel, q)`: `if channel in self._subscribers and q in
self._subscribers[channel]: ...remove(q)` — removes the first occurrence,
does nothing when the channel is unknown or the handle absent. -/
def unsubscribe (b : Broker) (channel : String) (qid : ℕ) : Broker :=
  match alGet b.subs channel with
  | some qs =>
    if qid ∈ qs then { b with subs := alSet b.subs channel (qs.erase qid) } else b
  | none => b

/-- Delivery of one message to one queue: `q.put_nowait(message)`, and on
`QueueFull` evict the oldest pending message with `q.get_nowait()` and then
`await q.put(message)` — which cannot suspend, because a slot was just
freed.  Total: the publisher never blocks. -/
def publishToQueue (cap : ℕ) (q : List Msg) (m : Msg) : List Msg :=
  if q.length < cap then q ++ [m] else q.drop 1 ++ [m]

/-- `publish(channel, message)`: snapshot the channel's queue list under the
lock (`list(self._subscribers.get(channel, []))` — `.get` never inserts),
then deliver to each snapshotted queue in order. -/
def publish (b : Broker) (channel : String) (m : Msg) : Broker :=
  let qids := (alGet b.subs channel).getD []
  { b with
      queues := qids.foldl (fun qm qid =>
        alSet qm qid (publishToQueue b.cap ((alGet qm qid).getD []) m)) b.queues }

/-! ## Poll task — one loop iteration of `PollerManager._poll_device`
(src/server.py)

The loop body between two suspension points is modelled as one step taking
the fetch outcome as input (`fetch_stream_history` being the only
interaction with the outside): either the fetch raised, or the fetch
returned a list of points and the persistence layer then either succeeded
or raised.  The step returns the new task state together with the trace of
externally visible events in the order the statements execute. -/

/-- A point of the stream-history response: `p.get("timestamp")` (`none`
models a missing key; the DRM API carries ISO8601 strings) and
`p.get("value")`. -/
structure Point where
  timestamp : Option String
  value : Value

/-- `ts = p.get("timestamp"); parsed = parse_latlon(val);
if not (ts and parsed): continue` — accepted exactly when the timestamp is
present and truthy (a non-empty string) and the normalizer accepts the
value; the accepted point becomes the row
`(device_id, ts, lat, lon, None, "stream:"+stream)`. -/
def processPoint (device_id stream : String) (p : Point) : Option LocRow :=
  match p.timestamp, parse_latlon p.value with
  | some t, some ll =>
    if t = "" then none
    else some ⟨device_id, t, ll.1, ll.2, none, "stream:" ++ stream⟩
  | _, _ => none

/-- The `new_rows` list built by the loop: accepted points in the order
received, each already shaped as a `locations` row. -/
def new_rows (device_id stream : String) (pts : List Point) : List LocRow :=
  pts.filterMap (processPoint device_id stream)

/-- Externally visible events of one loop iteration, in statement order. -/
inductive Ev where
  /-- `fetch_stream_history(..., start_time=self.last_seen_ts.get(key))`
  was issued with this lower bound. -/
  | fetch (lower : Option String)
  /-- `await insert_locations(new_rows)` committed this batch. -/
  | persist (rows : List LocRow)
  /-- `self.last_seen_ts[key] = new_rows[-1][1]`. -/
  | setWM (t : String)
  /-- `await broker.publish(...)` of one row's message. -/
  | publishMsg (m : Msg)
  /-- `await asyncio.sleep(max(POLL_SECONDS, 5))` in the `except` arm. -/
  | backoffSleep (secs : ℚ)
  /-- the unconditional `await asyncio.sleep(POLL_SECONDS)`. -/
  | pollSleep (secs : ℚ)
deriving DecidableEq, Repr

/-- Per-channel poll-task state: the watermark `self.last_seen_ts[key]` and
the durable store contents. -/
structure PollState where
  wm : Option String
  db : List LocRow
deriving DecidableEq, Repr

/-- Outcome of the fallible part of one iteration: the fetch raised, or the
fetch returned `pts` and `insert_locations` raised (rolling the transaction
back), or everything succeeded. -/
inductive CycleInput where
  | fetchErr
  | persistErr (pts : List Point)
  | ok (pts : List Point)

/-- The message published for one accepted row:
`{"device_id": device_id, "ts": ts, "lat": lat, "lon": lon}`. -/
def rowMsg (r : LocRow) : Msg :=
  ⟨r.device_id, r.ts, r.lat, r.lon⟩

/-- One iteration of the `while True` body of `_poll_device`, with
`P = POLL_SECONDS`.  Any exception inside the `try` is caught by the bare
`except Exception`, which sleeps `max(P, 5)`; the iteration always ends
with the unconditional `sleep(P)`. -/
def pollIteration (P : ℚ) (device_id stream : String) (s : PollState)
    (inp : CycleInput) : PollState × List Ev :=
  match inp with
  | .fetchErr => (s, [.fetch s.wm, .backoffSleep (max P 5), .pollSleep P])
  | .persistErr pts =>
    match new_rows device_id stream pts with
    | [] => (s, [.fetch s.wm, .pollSleep P])   -- nothing to insert: no raise
    | _ :: _ => (s, [.fetch s.wm, .backoffSleep (max P 5), .pollSleep P])
  | .ok pts =>
    match new_rows device_id stream pts with
    | [] => (s, [.fetch s.wm, .pollSleep P])
    | r0 :: rest =>
      let rows := r0 :: rest
      let lastTs := (rows.getLast (List.cons_ne_nil r0 rest)).ts
      ({ wm := some lastTs, db := (insert_locations s.db rows).1 },
       [.fetch s.wm, .persist rows, .setWM lastTs]
         ++ rows.map (fun r => .publishMsg (rowMsg r)) ++ [.pollSleep P])

/-- The messages published during a trace, in order. -/
def publishedMsgs (evs : List Ev) : List Msg :=
  evs.filterMap (fun e => match e with | .publishMsg m => some m | _ => none)

/-- Total time slept during a trace (the gap before the next fetch). -/
def sleepTotal (evs : List Ev) : ℚ :=
  (evs.map (fun e =>
    match e with
    | .backoffSleep q => q
    | .pollSleep q => q
    | _ => 0)).sum

/-! ## Poll supervisor — `PollerManager.ensure_poller` (src/server.py)

`ensure_poller` runs its check-and-start under `self.lock`, so it is one
atomic step; a task terminating (`task.done()` turning true) is the other
event that changes what the check observes.  Reachable supervisor states
are therefore exactly the results of sequences of these two steps. -/

/-- One spawned `asyncio.Task`, identified by its index in spawn order:
the channel it polls and whether it has finished. -/
structure TaskRec where
  key : String × String
  done : Bool
deriving DecidableEq, Repr

/-- Supervisor state: the ghost list of every task ever spawned (`done`
flips when the task terminates) and `self.tasks`, the registry mapping a
`(device_id, stream)` key to the recorded task. -/
structure SupState where
  spawned : List TaskRec
  reg : List ((String × String) × ℕ)
deriving DecidableEq, Repr

/-- `self.tasks[key].done()`; an unregistered id counts as done (does not
occur in reachable states). -/
def taskDoneAt (s : SupState) (tid : ℕ) : Bool :=
  match s.spawned[tid]? with
  | some t => t.done
  | none => true

/-- The condition under which `ensure_poller` starts a task:
`key not in self.tasks or self.tasks[key].done()`. -/
def startsNew (s : SupState) (key : String × String) : Bool :=
  match alGet s.reg key with
  | some tid => taskDoneAt s tid
  | none => true

/-- `asyncio.create_task(...)` plus `self.tasks[key] = t`. -/
def spawnTask (s : SupState) (key : String × String) : SupState :=
  { spawned := s.spawned ++ [⟨key, false⟩], reg := alSet s.reg key s.spawned.length }

/-- `ensure_poller(device_id, stream)`, the whole body under `self.lock`. -/
def ensure_poller (s : SupState) (key : String × String) : SupState :=
  if startsNew s key then spawnTask s key else s

/-- Mark the task `tid` as finished. -/
def markDone : List TaskRec → ℕ → List TaskRec
  | [], _ => []
  | t :: ts, 0 => ⟨t.key, true⟩ :: ts
  | t :: ts, n + 1 => t :: markDone ts n

/-- The two atomic events a supervisor state evolves by. -/
inductive SupAct where
  | ensure (key : String × String)
  | finish (tid : ℕ)
deriving DecidableEq, Repr

def supStep (s : SupState) : SupAct → SupState
  | .ensure key => ensure_poller s key
  | .finish tid => ⟨markDone s.spawned tid, s.reg⟩

/-- The supervisor state reached from the initial empty registry by a
sequence of `ensure_poller` calls and task terminations. -/
def supRun (acts : List SupAct) : SupState :=
  acts.foldl supStep ⟨[], []⟩

/-- Task `i` polls `key` and is still running. -/
def RunningAt (s : SupState) (key : String × String) (i : ℕ) : Prop :=
  s.spawned[i]? = some ⟨key, false⟩

instance (s : SupState) (key : String × String) (i : ℕ) : Decidable (RunningAt s key i) :=
  inferInstanceAs (Decidable (_ = _))

/-- The registry invariant: every live task for a channel is the one the
registry records for that channel. -/
def SupInv (s : SupState) : Prop :=
  ∀ key i, RunningAt s key i → alGet s.reg key = some i

/-! ## Helper lemmas -/

theorem alGet_alSet_same {κ α : Type} [DecidableEq κ] (l : List (κ × α)) (k : κ) (v : α) :
    alGet (alSet l k v) k = some v := by
  induction l with
  | nil => simp [alSet, alGet]
  | cons p rest ih =>
    by_cases h : p.1 = k
    · simp [alSet, h, alGet]
    · simp [alSet, h, alGet, ih]

theorem alGet_alSet_ne {κ α : Type} [DecidableEq κ] (l : List (κ × α)) (k k' : κ) (v : α)
    (h : k' ≠ k) : alGet (alSet l k v) k' = alGet l k' := by
  have hk : ¬(k = k') := fun hh => h hh.symm
  induction l with
  | nil => simp [alSet, alGet, hk]
  | cons p rest ih =>
    by_cases hp : p.1 = k
    · have hp' : ¬(p.1 = k') := by rw [hp]; exact hk
      simp [alSet, hp, alGet, hk, hp']
    · simp only [alSet, hp, if_false, alGet]
      by_cases hp2 : p.1 = k'
      · simp [hp2]
      · simp [hp2, ih]

@[simp] theorem publishedMsgs_nil : publishedMsgs [] = [] := rfl

@[simp] theorem publishedMsgs_cons_fetch (lb : Option String) (evs : List Ev) :
    publishedMsgs (.fetch lb :: evs) = publishedMsgs evs := rfl

@[simp] theorem publishedMsgs_cons_persist (rows : List LocRow) (evs : List Ev) :
    publishedMsgs (.persist rows :: evs) = publishedMsgs evs := rfl

@[simp] theorem publishedMsgs_cons_setWM (t : String) (evs : List Ev) :
    publishedMsgs (.setWM t :: evs) = publishedMsgs evs := rfl

@[simp] theorem publishedMsgs_cons_publish (m : Msg) (evs : List Ev) :
    publishedMsgs (.publishMsg m :: evs) = m :: publishedMsgs evs := rfl

@[simp] theorem publishedMsgs_cons_backoff (q : ℚ) (evs : List Ev) :
    publishedMsgs (.backoffSleep q :: evs) = publishedMsgs evs := rfl

@[simp] theorem publishedMsgs_cons_poll (q : ℚ) (evs : List Ev) :
    publishedMsgs (.pollSleep q :: evs) = publishedMsgs evs := rfl

@[simp] theorem publishedMsgs_append (a b : List Ev) :
    publishedMsgs (a ++ b) = publishedMsgs a ++ publishedMsgs b :=
  List.filterMap_append a b _

theorem publishedMsgs_map_rows (rows : List LocRow) :
    publishedMsgs (rows.map (fun r => Ev.publishMsg (rowMsg r))) = rows.map rowMsg := by
  induction rows with
  | nil => rfl
  | cons r rest ih => simp [ih]

@[simp] theorem sleepTotal_nil : sleepTotal [] = 0 := rfl

@[simp] theorem sleepTotal_cons_fetch (lb : Option String) (evs : List Ev) :
    sleepTotal (.fetch lb :: evs) = sleepTotal evs := by
  simp [sleepTotal]

@[simp] theorem sleepTotal_cons_persist (rows : List LocRow) (evs : List Ev) :
    sleepTotal (.persist rows :: evs) = sleepTotal evs := by
  simp [sleepTotal]

@[simp] theorem sleepTotal_cons_setWM (t : String) (evs : List Ev) :
    sleepTotal (.setWM t :: evs) = sleepTotal evs := by
  simp [sleepTotal]

@[simp] theorem sleepTotal_cons_publish (m : Msg) (evs : List Ev) :
    sleepTotal (.publishMsg m :: evs) = sleepTotal evs := by
  simp [sleepTotal]

@[simp] theorem sleepTotal_cons_backoff (q : ℚ) (evs : List Ev) :
    sleepTotal (.backoffSleep q :: evs) = q + sleepTotal evs := by
  simp [sleepTotal]

@[simp] theorem sleepTotal_cons_poll (q : ℚ) (evs : List Ev) :
    sleepTotal (.pollSleep q :: evs) = q + sleepTotal evs := by
  simp [sleepTotal]

theorem sleepTotal_publish_map (rows : List LocRow) :
    sleepTotal (rows.map (fun r => Ev.publishMsg (rowMsg r))) = 0 := by
  induction rows with
  | nil => rfl
  | cons r rest ih => simp [ih]

@[simp] theorem sleepTotal_append (a b : List Ev) :
    sleepTotal (a ++ b) = sleepTotal a + sleepTotal b := by
  simp [sleepTotal]

theorem publish_fold_notmem (cap : ℕ) (m : Msg) (qids : List ℕ)
    (qm : List (ℕ × List Msg)) (qid : ℕ) :
    qid ∉ qids →
    alGet (qids.foldl
        (fun qm2 q2 => alSet qm2 q2 (publishToQueue cap ((alGet qm2 q2).getD []) m)) qm) qid
      = alGet qm qid := by
  induction qids generalizing qm with
  | nil => intro _; rfl
  | cons a rest ih =>
    intro h
    have hne : qid ≠ a := fun e => h (e ▸ List.mem_cons_self a rest)
    simp only [List.foldl_cons]
    rw [ih _ (fun hh => h (List.mem_cons_of_mem a hh)), alGet_alSet_ne _ _ _ _ hne]

theorem publish_fold_mem (cap : ℕ) (m : Msg) (qids : List ℕ)
    (qm : List (ℕ × List Msg)) (qid : ℕ) :
    qids.Nodup → qid ∈ qids →
    alGet (qids.foldl
        (fun qm2 q2 => alSet qm2 q2 (publishToQueue cap ((alGet qm2 q2).getD []) m)) qm) qid
      = some (publishToQueue cap ((alGet qm qid).getD []) m) := by
  induction qids generalizing qm with
  | nil => intro _ h; cases h
  | cons a rest ih =>
    intro hnd h
    rcases List.nodup_cons.mp hnd with ⟨hna, hndr⟩
    simp only [List.foldl_cons]
    rcases List.mem_cons.mp h with he | hmem
    · subst he
      rw [publish_fold_notmem cap m rest _ qid hna, alGet_alSet_same]
    · have hne : qid ≠ a := fun e => hna (e ▸ hmem)
      rw [ih _ hndr hmem, alGet_alSet_ne _ _ _ _ hne]

/-- Every branch of the loop body re-enters `FETCH` with the state's current
watermark as the lower bound: the first event of any iteration's trace. -/
theorem pollIteration_head_fetch (P : ℚ) (d st : String) (s : PollState) (inp : CycleInput) :
    (pollIteration P d st s inp).2.head? = some (.fetch s.wm) := by
  match inp with
  | .fetchErr => rfl
  | .persistErr pts =>
    rcases h : new_rows d st pts with _ | ⟨r0, rest⟩ <;> simp [pollIteration, h]
  | .ok pts =>
    rcases h : new_rows d st pts with _ | ⟨r0, rest⟩ <;> simp [pollIteration, h]

theorem hasKey_append_self (db : List LocRow) (r : LocRow) :
    hasKey (db ++ [r]) r.device_id r.ts = true := by
  simp [hasKey, List.any_append]

theorem insert_locations_single (db : List LocRow) (r : LocRow) :
    insert_locations db [r] = insertRow db r := by
  simp [insert_locations, insertRow]

theorem markDone_get_ne (l : List TaskRec) (tid i : ℕ) (h : i ≠ tid) :
    (markDone l tid)[i]? = l[i]? := by
  induction l generalizing tid i with
  | nil => simp [markDone]
  | cons t ts ih =>
    cases tid with
    | zero =>
      cases i with
      | zero => exact absurd rfl h
      | succ j => simp [markDone]
    | succ n =>
      cases i with
      | zero => simp [markDone]
      | succ j => simpa [markDone] using ih n j (fun hh => h (by rw [hh]))

theorem markDone_get_self (l : List TaskRec) (tid : ℕ) :
    (markDone l tid)[tid]? = l[tid]?.map (fun t => ⟨t.key, true⟩) := by
  induction l generalizing tid with
  | nil => simp [markDone]
  | cons t ts ih =>
    cases tid with
    | zero => simp [markDone]
    | succ n => simpa [markDone] using ih n

theorem supInv_init : SupInv ⟨[], []⟩ := by
  intro key i hrun
  simp [RunningAt] at hrun

theorem supInv_step (s : SupState) (a : SupAct) (h : SupInv s) : SupInv (supStep s a) := by
  cases a with
  | ensure key =>
    simp only [supStep, ensure_poller]
    by_cases hstart : startsNew s key = true
    · simp only [hstart, if_true]
      intro key' i hrun
      simp only [RunningAt, spawnTask] at hrun
      rcases Nat.lt_trichotomy i s.spawned.length with hlt | heq | hgt
      · rw [List.getElem?_append_left hlt] at hrun
        have hreg := h key' i hrun
        by_cases hkk : key' = key
        · exfalso
          subst hkk
          have hd : taskDoneAt s i = false := by simp [taskDoneAt, hrun]
          have hs2 : startsNew s key' = taskDoneAt s i := by simp [startsNew, hreg]
          rw [hs2, hd] at hstart
          exact Bool.false_ne_true hstart
        · simpa [spawnTask, alGet_alSet_ne _ _ _ _ hkk] using hreg
      · subst heq
        rw [List.getElem?_concat_length] at hrun
        have hk : key = key' := congrArg TaskRec.key (Option.some.inj hrun)
        subst hk
        simp [spawnTask, alGet_alSet_same]
      · exfalso
        rw [List.getElem?_eq_none (by simp; omega)] at hrun
        exact Option.noConfusion hrun
    · simp only [hstart, if_false]
      exact h
  | finish tid =>
    intro key' i hrun
    simp only [RunningAt, supStep] at hrun
    by_cases hit : i = tid
    · exfalso
      subst hit
      rw [markDone_get_self] at hrun
      cases hsp : s.spawned[i]? with
      | none => rw [hsp] at hrun; exact Option.noConfusion hrun
      | some t =>
        rw [hsp] at hrun
        have : (true : Bool) = false := congrArg TaskRec.done (Option.some.inj hrun)
        exact Bool.noConfusion this
    · rw [markDone_get_ne _ _ _ hit] at hrun
      exact h key' i hrun

theorem supInv_foldl (acts : List SupAct) (s : SupState) (h : SupInv s) :
    SupInv (acts.foldl supStep s) := by
  induction acts generalizing s with
  | nil => exact h
  | cons a rest ih => exact ih _ (supInv_step s a h)

theorem supInv_supRun (acts : List SupAct) : SupInv (supRun acts) :=
  supInv_foldl acts _ supInv_init

theorem ensure_poller_spawn_count (s : SupState) (key : String × String) :
    (ensure_poller s key).spawned.length
      = s.spawned.length + (if startsNew s key then 1 else 0) := by
  by_cases h : startsNew s key = true <;> simp [ensure_poller, h, spawnTask]

theorem startsNew_iff (s : SupState) (key : String × String) :
    startsNew s key = true
      ↔ (alGet s.reg key = none
          ∨ ∃ tid, alGet s.reg key = some tid ∧ taskDoneAt s tid = true) := by
  rcases h : alGet s.reg key with _ | tid <;> simp [startsNew, h]

/-! ## Claim theorems -/

/-- C1 (amended): persistence deduplicates exactly on the pair
`(device id, timestamp)` — the stream name does not participate in the key.
For a single sample, `insert_locations` stores a new row if and only if no
row with the same `(device_id, ts)` exists, with insert count 1 exactly on
a fresh key; re-inserting the identical sample leaves the table unchanged
with count 0; and a second sample sharing the device id and timestamp but
(possibly) differing in stream name is absorbed, not stored as a second
row. -/
theorem insert_dedup_on_device_and_ts (db : List LocRow) (r r2 : LocRow)
    (hd : r2.device_id = r.device_id) (ht : r2.ts = r.ts) :
    insert_locations db [r]
        = (if hasKey db r.device_id r.ts then (db, 0) else (db ++ [r], 1))
    ∧ insert_locations (insert_locations db [r]).1 [r] = ((insert_locations db [r]).1, 0)
    ∧ (insert_locations db [r, r2]).1 = (insert_locations db [r]).1 := by
  by_cases hk : hasKey db r.device_id r.ts
  · simp [insert_locations, insertRow, hk, hd, ht]
  · simp [insert_locations, insertRow, hk, hd, ht, hasKey_append_self]

theorem insert_dedup_on_device_and_ts_witness :
    insert_locations [] [⟨"d", "T1", 1, 2, none, "stream:location"⟩]
        = (if hasKey [] "d" "T1" then ([], 0) else ([⟨"d", "T1", 1, 2, none, "stream:location"⟩], 1))
    ∧ insert_locations (insert_locations [] [⟨"d", "T1", 1, 2, none, "stream:location"⟩]).1
          [⟨"d", "T1", 1, 2, none, "stream:location"⟩]
        = ((insert_locations [] [⟨"d", "T1", 1, 2, none, "stream:location"⟩]).1, 0)
    ∧ (insert_locations []
          [⟨"d", "T1", 1, 2, none, "stream:location"⟩, ⟨"d", "T1", 1, 2, none, "stream:gps"⟩]).1
        = (insert_locations [] [⟨"d", "T1", 1, 2, none, "stream:location"⟩]).1 :=
  insert_dedup_on_device_and_ts [] ⟨"d", "T1", 1, 2, none, "stream:location"⟩
    ⟨"d", "T1", 1, 2, none, "stream:gps"⟩ rfl rfl

/-- C1 (counterexample to the claim as stated): two samples that share a
device id and timestamp but differ in stream name (carried in the `source`
column) are NOT persisted as two distinct rows — the second is ignored and
one stored row remains, because the primary key is `(device_id, ts)`
without the stream name. -/
theorem insert_stream_collapse_counterexample :
    (insert_locations []
        [⟨"dev1", "2024-01-01T00:00:00Z", 1, 2, none, "stream:location"⟩,
         ⟨"dev1", "2024-01-01T00:00:00Z", 1, 2, none, "stream:gps"⟩]).1
      = [⟨"dev1", "2024-01-01T00:00:00Z", 1, 2, none, "stream:location"⟩]
    ∧ (insert_locations []
        [⟨"dev1", "2024-01-01T00:00:00Z", 1, 2, none, "stream:location"⟩,
         ⟨"dev1", "2024-01-01T00:00:00Z", 1, 2, none, "stream:gps"⟩]).1.length ≠ 2
    ∧ ("stream:location" : String) ≠ "stream:gps" := by
  refine ⟨by decide, by decide, by decide⟩

/-- C2 (code bug): the normalizer rejects a keyed structure whose latitude
is the numeric value `0`, even though `0` is numeric-coercible
(`pyFloat` accepts it): the `or`-chained field lookup
`val.get("lat") or val.get("latitude")` treats the falsy value `0` as a
missing field.  The same shape with latitude `1` is accepted, isolating
the divergence to the falsy coordinate. -/
theorem parse_latlon_rejects_zero_latitude :
    parse_latlon (.vdict [("lat", .vnum 0), ("lon", .vnum 2)]) = none
    ∧ pyFloat (.vnum 0) = some 0
    ∧ parse_latlon (.vdict [("lat", .vnum 1), ("lon", .vnum 2)]) = some (1, 2)
    ∧ parse_latlon (.vdict [("lat", .vnum 1), ("lon", .vnum 0)]) = none := by
  refine ⟨by decide, by decide, by decide, by decide⟩

/-- C4: delivery to a subscriber buffer never blocks and never exceeds the
fixed capacity: under the drop-oldest policy, a full buffer loses exactly
its oldest pending message before the new one is appended, a non-full
buffer is appended to, and with capacity 2 publishing M1, M2, M3 in order
to an unread subscriber leaves exactly [M2, M3] pending, in that order. -/
theorem publish_drop_oldest_bounded (cap : ℕ) (q : List Msg) (m m1 m2 m3 : Msg)
    (hcap : 0 < cap) (hlen : q.length ≤ cap) :
    (publishToQueue cap q m).length ≤ cap
    ∧ (q.length = cap → publishToQueue cap q m = q.drop 1 ++ [m])
    ∧ (q.length < cap → publishToQueue cap q m = q ++ [m])
    ∧ publishToQueue 2 (publishToQueue 2 (publishToQueue 2 [] m1) m2) m3 = [m2, m3] := by
  refine ⟨?_, ?_, ?_, ?_⟩
  · by_cases h : q.length < cap
    · simp only [publishToQueue, h, if_true, List.length_append, List.length_singleton]
      omega
    · simp only [publishToQueue, h, if_false, List.length_append, List.length_singleton,
        List.length_drop]
      omega
  · intro h
    have : ¬ q.length < cap := by omega
    simp [publishToQueue, this]
  · intro h
    simp [publishToQueue, h]
  · simp [publishToQueue]

theorem publish_drop_oldest_bounded_witness :
    (publishToQueue 2 [] ⟨"d", "T0", 0, 0⟩).length ≤ 2
    ∧ (([] : List Msg).length = 2 →
        publishToQueue 2 [] ⟨"d", "T0", 0, 0⟩ = ([] : List Msg).drop 1 ++ [⟨"d", "T0", 0, 0⟩])
    ∧ (([] : List Msg).length < 2 →
        publishToQueue 2 [] ⟨"d", "T0", 0, 0⟩ = [] ++ [⟨"d", "T0", 0, 0⟩])
    ∧ publishToQueue 2
        (publishToQueue 2 (publishToQueue 2 [] ⟨"d", "T1", 1, 1⟩) ⟨"d", "T2", 2, 2⟩)
        ⟨"d", "T3", 3, 3⟩
      = [⟨"d", "T2", 2, 2⟩, ⟨"d", "T3", 3, 3⟩] := by
  have h := publish_drop_oldest_bounded 2 [] ⟨"d", "T0", 0, 0⟩
    ⟨"d", "T1", 1, 1⟩ ⟨"d", "T2", 2, 2⟩ ⟨"d", "T3", 3, 3⟩
    (by decide) (by decide)
  exact ⟨h.1, h.2.1, h.2.2.1, h.2.2.2⟩

/-- C9: `unsubscribe` removes the handle's registration when present, is a
no-op (raising nothing) when the handle is absent or the channel unknown,
and — since `subscribe` hands out fresh queues, a handle is registered at
most once — running it twice with the same arguments leaves the broker in
the same state as running it once. -/
theorem unsubscribe_idempotent (b : Broker) (ch : String) (qid : ℕ)
    (hcount : ((alGet b.subs ch).getD []).count qid ≤ 1) :
    unsubscribe (unsubscribe b ch qid) ch qid = unsubscribe b ch qid
    ∧ (alGet b.subs ch = none → unsubscribe b ch qid = b)
    ∧ (∀ qs, alGet b.subs ch = some qs → qid ∉ qs → unsubscribe b ch qid = b)
    ∧ (∀ qs, alGet b.subs ch = some qs → qid ∈ qs →
        alGet (unsubscribe b ch qid).subs ch = some (qs.erase qid)) := by
  rcases h : alGet b.subs ch with _ | qs
  · simp [unsubscribe, h]
  · by_cases hm : qid ∈ qs
    · have hc1 : qs.count qid = 1 := by
        rw [h] at hcount
        simp only [Option.getD_some] at hcount
        have hpos := List.count_pos_iff.mpr hm
        omega
      have hnm : qid ∉ qs.erase qid := by
        rw [← List.count_eq_zero, List.count_erase_self, hc1]
      have hone : unsubscribe b ch qid
          = { b with subs := alSet b.subs ch (qs.erase qid) } := by
        simp [unsubscribe, h, hm]
      have hget : alGet (unsubscribe b ch qid).subs ch = some (qs.erase qid) := by
        rw [hone]
        exact alGet_alSet_same _ _ _
      refine ⟨?_, ?_, ?_, ?_⟩
      · generalize hgen : unsubscribe b ch qid = b2 at hget
        simp [unsubscribe, hget, hnm]
      · intro hn
        exact Option.noConfusion hn
      · intro qs' hqs' hnm'
        have e : qs = qs' := Option.some.inj hqs'
        subst e
        exact absurd hm hnm'
      · intro qs' hqs' _
        have e : qs = qs' := Option.some.inj hqs'
        subst e
        exact hget
    · have hone : unsubscribe b ch qid = b := by simp [unsubscribe, h, hm]
      refine ⟨by rw [hone, hone], ?_, fun qs' hqs' _ => hone, ?_⟩
      · intro hn
        exact Option.noConfusion hn
      · intro qs' hqs' hm'
        have e : qs = qs' := Option.some.inj hqs'
        subst e
        exact absurd hm' hm

/-- C7: `publish` delivers the message to every subscriber buffer registered
under the channel at the time of the call (their queues each receive one
delivery), touches no queue that is not registered under the channel,
never mutates the registry, and with zero registered subscribers leaves
the broker exactly as it was (the message is discarded, never buffered). -/
theorem publish_fanout (b : Broker) (ch : String) (m : Msg)
    (hnd : ((alGet b.subs ch).getD []).Nodup) :
    (∀ qid ∈ (alGet b.subs ch).getD [],
        alGet (publish b ch m).queues qid
          = some (publishToQueue b.cap ((alGet b.queues qid).getD []) m))
    ∧ (∀ qid, qid ∉ (alGet b.subs ch).getD [] →
        alGet (publish b ch m).queues qid = alGet b.queues qid)
    ∧ (publish b ch m).subs = b.subs
    ∧ ((alGet b.subs ch).getD [] = [] → publish b ch m = b) := by
  refine ⟨?_, ?_, rfl, ?_⟩
  · intro qid hq
    exact publish_fold_mem b.cap m _ b.queues qid hnd hq
  · intro qid hq
    exact publish_fold_notmem b.cap m _ b.queues qid hq
  · intro h0
    simp [publish, h0]

theorem publish_fanout_witness :
    (∀ qid ∈ (alGet ([("ch", [0, 1])] : List (String × List ℕ)) "ch").getD [],
        alGet (publish ⟨1000, [("ch", [0, 1])], [(0, []), (1, [])], 2⟩ "ch" ⟨"d", "T1", 1, 2⟩).queues qid
          = some (publishToQueue 1000
              ((alGet ([(0, []), (1, [])] : List (ℕ × List Msg)) qid).getD []) ⟨"d", "T1", 1, 2⟩))
    ∧ (∀ qid, qid ∉ (alGet ([("ch", [0, 1])] : List (String × List ℕ)) "ch").getD [] →
        alGet (publish ⟨1000, [("ch", [0, 1])], [(0, []), (1, [])], 2⟩ "ch" ⟨"d", "T1", 1, 2⟩).queues qid
          = alGet ([(0, []), (1, [])] : List (ℕ × List Msg)) qid)
    ∧ (publish ⟨1000, [("ch", [0, 1])], [(0, []), (1, [])], 2⟩ "ch" ⟨"d", "T1", 1, 2⟩).subs
        = [("ch", [0, 1])]
    ∧ ((alGet ([("ch", [0, 1])] : List (String × List ℕ)) "ch").getD [] = [] →
        publish ⟨1000, [("ch", [0, 1])], [(0, []), (1, [])], 2⟩ "ch" ⟨"d", "T1", 1, 2⟩
          = ⟨1000, [("ch", [0, 1])], [(0, []), (1, [])], 2⟩) :=
  publish_fanout ⟨1000, [("ch", [0, 1])], [(0, []), (1, [])], 2⟩ "ch" ⟨"d", "T1", 1, 2⟩ (by decide)

/-- C3: when a poll cycle's fetch returns points whose accepted rows have
ascending timestamps and at least one point is accepted, the cycle persists
the batch (trace position 1) strictly before it advances the watermark
(trace position 2), the resulting watermark is the timestamp of the last
accepted point, and whatever the next cycle brings, its fetch is issued
with exactly that watermark as its lower bound. -/
theorem watermark_advances_to_last_accepted (P : ℚ) (d st : String) (s : PollState)
    (pts : List Point) (inp2 : CycleInput) (r0 : LocRow) (rest : List LocRow)
    (hrows : new_rows d st pts = r0 :: rest)
    (_hasc : List.Chain' (fun a b : LocRow => a.ts.toList < b.ts.toList) (r0 :: rest)) :
    (pollIteration P d st s (.ok pts)).1.wm
        = some ((r0 :: rest).getLast (List.cons_ne_nil r0 rest)).ts
    ∧ (pollIteration P d st s (.ok pts)).1.db = (insert_locations s.db (r0 :: rest)).1
    ∧ (pollIteration P d st s (.ok pts)).2.get? 1 = some (.persist (r0 :: rest))
    ∧ (pollIteration P d st s (.ok pts)).2.get? 2
        = some (.setWM ((r0 :: rest).getLast (List.cons_ne_nil r0 rest)).ts)
    ∧ (pollIteration P d st ((pollIteration P d st s (.ok pts)).1) inp2).2.head?
        = some (.fetch (pollIteration P d st s (.ok pts)).1.wm) := by
  have hstep : pollIteration P d st s (.ok pts)
      = ({ wm := some ((r0 :: rest).getLast (List.cons_ne_nil r0 rest)).ts,
           db := (insert_locations s.db (r0 :: rest)).1 },
         [.fetch s.wm, .persist (r0 :: rest),
          .setWM ((r0 :: rest).getLast (List.cons_ne_nil r0 rest)).ts]
           ++ (r0 :: rest).map (fun r => .publishMsg (rowMsg r)) ++ [.pollSleep P]) := by
    simp [pollIteration, hrows]
  refine ⟨by rw [hstep], by rw [hstep], by rw [hstep]; rfl, by rw [hstep]; rfl,
    pollIteration_head_fetch P d st _ inp2⟩

theorem watermark_advances_to_last_accepted_witness :
    (pollIteration 3 "dev" "location" ⟨none, []⟩
        (.ok [⟨some "T1", .vdict [("lat", .vnum 1), ("lon", .vnum 2)]⟩,
              ⟨some "T2", .vdict [("lat", .vnum 3), ("lon", .vnum 4)]⟩])).1.wm
        = some (([⟨"dev", "T1", 1, 2, none, "stream:location"⟩,
                  ⟨"dev", "T2", 3, 4, none, "stream:location"⟩]
                  : List LocRow).getLast (List.cons_ne_nil _ _)).ts
    ∧ (pollIteration 3 "dev" "location" ⟨none, []⟩
        (.ok [⟨some "T1", .vdict [("lat", .vnum 1), ("lon", .vnum 2)]⟩,
              ⟨some "T2", .vdict [("lat", .vnum 3), ("lon", .vnum 4)]⟩])).1.db
        = (insert_locations []
            [⟨"dev", "T1", 1, 2, none, "stream:location"⟩,
             ⟨"dev", "T2", 3, 4, none, "stream:location"⟩]).1
    ∧ (pollIteration 3 "dev" "location" ⟨none, []⟩
        (.ok [⟨some "T1", .vdict [("lat", .vnum 1), ("lon", .vnum 2)]⟩,
              ⟨some "T2", .vdict [("lat", .vnum 3), ("lon", .vnum 4)]⟩])).2.get? 1
        = some (.persist [⟨"dev", "T1", 1, 2, none, "stream:location"⟩,
                          ⟨"dev", "T2", 3, 4, none, "stream:location"⟩])
    ∧ (pollIteration 3 "dev" "location" ⟨none, []⟩
        (.ok [⟨some "T1", .vdict [("lat", .vnum 1), ("lon", .vnum 2)]⟩,
              ⟨some "T2", .vdict [("lat", .vnum 3), ("lon", .vnum 4)]⟩])).2.get? 2
        = some (.setWM (([⟨"dev", "T1", 1, 2, none, "stream:location"⟩,
                          ⟨"dev", "T2", 3, 4, none, "stream:location"⟩]
                          : List LocRow).getLast (List.cons_ne_nil _ _)).ts)
    ∧ (pollIteration 3 "dev" "location"
        ((pollIteration 3 "dev" "location" ⟨none, []⟩
          (.ok [⟨some "T1", .vdict [("lat", .vnum 1), ("lon", .vnum 2)]⟩,
                ⟨some "T2", .vdict [("lat", .vnum 3), ("lon", .vnum 4)]⟩])).1) .fetchErr).2.head?
        = some (.fetch (pollIteration 3 "dev" "location" ⟨none, []⟩
            (.ok [⟨some "T1", .vdict [("lat", .vnum 1), ("lon", .vnum 2)]⟩,
                  ⟨some "T2", .vdict [("lat", .vnum 3), ("lon", .vnum 4)]⟩])).1.wm) :=
  watermark_advances_to_last_accepted 3 "dev" "location" ⟨none, []⟩
    [⟨some "T1", .vdict [("lat", .vnum 1), ("lon", .vnum 2)]⟩,
     ⟨some "T2", .vdict [("lat", .vnum 3), ("lon", .vnum 4)]⟩] .fetchErr
    ⟨"dev", "T1", 1, 2, none, "stream:location"⟩
    [⟨"dev", "T2", 3, 4, none, "stream:location"⟩] (by decide)
    (List.chain'_cons.mpr ⟨by decide, List.chain'_singleton _⟩)

theorem unsubscribe_idempotent_witness :
    unsubscribe (unsubscribe ⟨1000, [("ch", [7])], [(7, [])], 8⟩ "ch" 7) "ch" 7
        = unsubscribe ⟨1000, [("ch", [7])], [(7, [])], 8⟩ "ch" 7
    ∧ (alGet ([("ch", [7])] : List (String × List ℕ)) "ch" = none →
        unsubscribe ⟨1000, [("ch", [7])], [(7, [])], 8⟩ "ch" 7 = ⟨1000, [("ch", [7])], [(7, [])], 8⟩)
    ∧ (∀ qs, alGet ([("ch", [7])] : List (String × List ℕ)) "ch" = some qs → 7 ∉ qs →
        unsubscribe ⟨1000, [("ch", [7])], [(7, [])], 8⟩ "ch" 7 = ⟨1000, [("ch", [7])], [(7, [])], 8⟩)
    ∧ (∀ qs, alGet ([("ch", [7])] : List (String × List ℕ)) "ch" = some qs → 7 ∈ qs →
        alGet (unsubscribe ⟨1000, [("ch", [7])], [(7, [])], 8⟩ "ch" 7).subs "ch"
          = some (qs.erase 7)) :=
  unsubscribe_idempotent ⟨1000, [("ch", [7])], [(7, [])], 8⟩ "ch" 7 (by decide)

/-- C6: processing examines the batch in order and accepts exactly the
points that carry a (truthy) timestamp and whose value the normalizer
accepts; a point lacking a timestamp or failing normalization is dropped
individually — removing it changes nothing about the rest of the batch —
no error event (backoff) is ever emitted by a successful cycle, and one
broker message per accepted point, carrying device id, timestamp, latitude
and longitude, is published in the accepted order. -/
theorem process_drops_individually (P : ℚ) (d st : String) (s : PollState)
    (pts pre post : List Point) (bad : Point)
    (hbad : processPoint d st bad = none) :
    publishedMsgs (pollIteration P d st s (.ok pts)).2 = (new_rows d st pts).map rowMsg
    ∧ new_rows d st (pre ++ bad :: post) = new_rows d st (pre ++ post)
    ∧ (∀ q : ℚ, Ev.backoffSleep q ∉ (pollIteration P d st s (.ok pts)).2)
    ∧ (∀ p : Point, (processPoint d st p).isSome
        ↔ ∃ t, p.timestamp = some t ∧ t ≠ "" ∧ (parse_latlon p.value).isSome) := by
  refine ⟨?_, ?_, ?_, ?_⟩
  · rcases h : new_rows d st pts with _ | ⟨r0, rest⟩
    · simp [pollIteration, h]
    · simp [pollIteration, h, publishedMsgs_map_rows]
  · simp [new_rows, hbad]
  · intro q
    rcases h : new_rows d st pts with _ | ⟨r0, rest⟩
    · simp [pollIteration, h]
    · simp [pollIteration, h]
  · intro p
    rcases hts : p.timestamp with _ | t
    · simp [processPoint, hts]
    · rcases hv : parse_latlon p.value with _ | ll
      · simp [processPoint, hts, hv]
      · by_cases he : t = "" <;> simp [processPoint, hts, hv, he]

theorem process_drops_individually_witness :
    publishedMsgs (pollIteration 3 "dev" "location" ⟨none, []⟩
        (.ok [⟨some "T1", .vdict [("lat", .vnum 1), ("lon", .vnum 2)]⟩,
              ⟨none, .vstr "abc"⟩])).2
      = (new_rows "dev" "location"
          [⟨some "T1", .vdict [("lat", .vnum 1), ("lon", .vnum 2)]⟩,
           ⟨none, .vstr "abc"⟩]).map rowMsg
    ∧ new_rows "dev" "location"
        ([⟨some "T1", .vdict [("lat", .vnum 1), ("lon", .vnum 2)]⟩]
          ++ ⟨none, .vstr "abc"⟩ ::
            [⟨some "T2", .vdict [("lat", .vnum 3), ("lon", .vnum 4)]⟩])
      = new_rows "dev" "location"
          ([⟨some "T1", .vdict [("lat", .vnum 1), ("lon", .vnum 2)]⟩]
            ++ [⟨some "T2", .vdict [("lat", .vnum 3), ("lon", .vnum 4)]⟩])
    ∧ (∀ q : ℚ, Ev.backoffSleep q ∉ (pollIteration 3 "dev" "location" ⟨none, []⟩
        (.ok [⟨some "T1", .vdict [("lat", .vnum 1), ("lon", .vnum 2)]⟩,
              ⟨none, .vstr "abc"⟩])).2)
    ∧ (∀ p : Point, (processPoint "dev" "location" p).isSome
        ↔ ∃ t, p.timestamp = some t ∧ t ≠ ""
            ∧ (parse_latlon p.value).isSome) :=
  process_drops_individually 3 "dev" "location" ⟨none, []⟩
    [⟨some "T1", .vdict [("lat", .vnum 1), ("lon", .vnum 2)]⟩, ⟨none, .vstr "abc"⟩]
    [⟨some "T1", .vdict [("lat", .vnum 1), ("lon", .vnum 2)]⟩]
    [⟨some "T2", .vdict [("lat", .vnum 3), ("lon", .vnum 4)]⟩]
    ⟨none, .vstr "abc"⟩ (by decide)

/-- C8: an exception in the fetch phase (and a persistence exception with a
non-empty accepted batch) is absorbed inside the loop body: the task state
is unchanged, a backoff sleep of `max(POLL_SECONDS, 5)` is emitted, the
total time slept before the retry is strictly longer than after a normal
successful cycle, and the next iteration — whatever its outcome — starts by
fetching again with the same watermark: nothing escalates to the
supervisor or any caller. -/
theorem backoff_catches_and_retries (P : ℚ) (d st : String) (s : PollState)
    (pts : List Point) (inp2 : CycleInput) (hne : new_rows d st pts ≠ []) :
    (pollIteration P d st s .fetchErr).1 = s
    ∧ (pollIteration P d st s .fetchErr).2
        = [.fetch s.wm, .backoffSleep (max P 5), .pollSleep P]
    ∧ (pollIteration P d st s (.persistErr pts)).1 = s
    ∧ Ev.backoffSleep (max P 5) ∈ (pollIteration P d st s (.persistErr pts)).2
    ∧ sleepTotal (pollIteration P d st s .fetchErr).2
        > sleepTotal (pollIteration P d st s (.ok pts)).2
    ∧ (pollIteration P d st ((pollIteration P d st s .fetchErr).1) inp2).2.head?
        = some (.fetch s.wm) := by
  rcases hr : new_rows d st pts with _ | ⟨r0, rest⟩
  · exact absurd hr hne
  · refine ⟨rfl, rfl, ?_, ?_, ?_, ?_⟩
    · simp [pollIteration, hr]
    · simp [pollIteration, hr]
    · have h1 : sleepTotal (pollIteration P d st s .fetchErr).2 = max P 5 + P := by
        simp [pollIteration]
      have h2 : sleepTotal (pollIteration P d st s (.ok pts)).2 = P := by
        simp [pollIteration, hr, sleepTotal_publish_map]
      rw [h1, h2]
      have h5 : (5 : ℚ) ≤ max P 5 := le_max_right _ _
      linarith
    · exact pollIteration_head_fetch P d st s inp2

theorem backoff_catches_and_retries_witness :
    (pollIteration 3 "dev" "location" ⟨some "T0", []⟩ .fetchErr).1 = ⟨some "T0", []⟩
    ∧ (pollIteration 3 "dev" "location" ⟨some "T0", []⟩ .fetchErr).2
        = [.fetch (some "T0"), .backoffSleep (max 3 5), .pollSleep 3]
    ∧ (pollIteration 3 "dev" "location" ⟨some "T0", []⟩
        (.persistErr [⟨some "T1", .vdict [("lat", .vnum 1), ("lon", .vnum 2)]⟩])).1
        = ⟨some "T0", []⟩
    ∧ Ev.backoffSleep (max 3 5) ∈ (pollIteration 3 "dev" "location" ⟨some "T0", []⟩
        (.persistErr [⟨some "T1", .vdict [("lat", .vnum 1), ("lon", .vnum 2)]⟩])).2
    ∧ sleepTotal (pollIteration 3 "dev" "location" ⟨some "T0", []⟩ .fetchErr).2
        > sleepTotal (pollIteration 3 "dev" "location" ⟨some "T0", []⟩
            (.ok [⟨some "T1", .vdict [("lat", .vnum 1), ("lon", .vnum 2)]⟩])).2
    ∧ (pollIteration 3 "dev" "location"
        ((pollIteration 3 "dev" "location" ⟨some "T0", []⟩ .fetchErr).1) .fetchErr).2.head?
        = some (.fetch (some "T0")) :=
  backoff_catches_and_retries 3 "dev" "location" ⟨some "T0", []⟩
    [⟨some "T1", .vdict [("lat", .vnum 1), ("lon", .vnum 2)]⟩] .fetchErr (by decide)

/-- C10: a cycle whose fetch returned a non-empty list of points, all of
which are discarded, is a complete no-op on the task state: the watermark
and the stored rows keep their previous values, the trace holds no persist
and no publish event, and the next fetch — whatever the next cycle's
outcome — is issued with the same lower bound the failed cycle used. -/
theorem all_dropped_leaves_state_unchanged (P : ℚ) (d st : String) (s : PollState)
    (pts : List Point) (inp2 : CycleInput) (_hpts : pts ≠ [])
    (hnone : new_rows d st pts = []) :
    (pollIteration P d st s (.ok pts)).1 = s
    ∧ (pollIteration P d st s (.ok pts)).2 = [.fetch s.wm, .pollSleep P]
    ∧ (∀ rows, Ev.persist rows ∉ (pollIteration P d st s (.ok pts)).2)
    ∧ (∀ m : Msg, Ev.publishMsg m ∉ (pollIteration P d st s (.ok pts)).2)
    ∧ (pollIteration P d st ((pollIteration P d st s (.ok pts)).1) inp2).2.head?
        = some (.fetch s.wm) := by
  have h1 : (pollIteration P d st s (.ok pts)).1 = s := by
    simp [pollIteration, hnone]
  refine ⟨h1, by simp [pollIteration, hnone], ?_, ?_, ?_⟩
  · intro rows
    simp [pollIteration, hnone]
  · intro m
    simp [pollIteration, hnone]
  · rw [h1]
    exact pollIteration_head_fetch P d st s inp2

theorem all_dropped_leaves_state_unchanged_witness :
    (pollIteration 3 "dev" "location" ⟨some "T0", []⟩
        (.ok [⟨none, .vstr "abc"⟩, ⟨some "T1", .vstr "abc"⟩])).1 = ⟨some "T0", []⟩
    ∧ (pollIteration 3 "dev" "location" ⟨some "T0", []⟩
        (.ok [⟨none, .vstr "abc"⟩, ⟨some "T1", .vstr "abc"⟩])).2
        = [.fetch (some "T0"), .pollSleep 3]
    ∧ (∀ rows, Ev.persist rows ∉ (pollIteration 3 "dev" "location" ⟨some "T0", []⟩
        (.ok [⟨none, .vstr "abc"⟩, ⟨some "T1", .vstr "abc"⟩])).2)
    ∧ (∀ m : Msg, Ev.publishMsg m ∉ (pollIteration 3 "dev" "location" ⟨some "T0", []⟩
        (.ok [⟨none, .vstr "abc"⟩, ⟨some "T1", .vstr "abc"⟩])).2)
    ∧ (pollIteration 3 "dev" "location"
        ((pollIteration 3 "dev" "location" ⟨some "T0", []⟩
          (.ok [⟨none, .vstr "abc"⟩, ⟨some "T1", .vstr "abc"⟩])).1) .fetchErr).2.head?
        = some (.fetch (some "T0")) :=
  all_dropped_leaves_state_unchanged 3 "dev" "location" ⟨some "T0", []⟩
    [⟨none, .vstr "abc"⟩, ⟨some "T1", .vstr "abc"⟩] .fetchErr
    (List.cons_ne_nil _ _) (by decide)

/-- C5: in every supervisor state reachable by `ensure_poller` calls and
task terminations, at most one non-finished task exists per channel (any
two live task ids for the same channel coincide), and `ensure_poller`
starts a new task — growing the spawn list by one — exactly when no task is
recorded for the channel or the recorded task has finished.  Each
`ensure_poller` body runs under `self.lock`, so interleavings of concurrent
callers are exactly the sequences of atomic steps quantified here: two
concurrently running tasks for one channel are impossible. -/
theorem ensure_poller_single_live_task (acts : List SupAct) (key : String × String)
    (i j : ℕ) (hi : RunningAt (supRun acts) key i) (hj : RunningAt (supRun acts) key j) :
    i = j
    ∧ (ensure_poller (supRun acts) key).spawned.length
        = (supRun acts).spawned.length
          + (if startsNew (supRun acts) key then 1 else 0)
    ∧ (startsNew (supRun acts) key = true
        ↔ (alGet (supRun acts).reg key = none
            ∨ ∃ tid, alGet (supRun acts).reg key = some tid
                ∧ taskDoneAt (supRun acts) tid = true)) := by
  have hinv := supInv_supRun acts
  have e1 := hinv key i hi
  have e2 := hinv key j hj
  exact ⟨Option.some.inj (e1.symm.trans e2), ensure_poller_spawn_count _ _,
    startsNew_iff _ _⟩

theorem ensure_poller_single_live_task_witness :
    (0 : ℕ) = 0
    ∧ (ensure_poller (supRun [.ensure ("d1", "location")]) ("d1", "location")).spawned.length
        = (supRun [.ensure ("d1", "location")]).spawned.length
          + (if startsNew (supRun [.ensure ("d1", "location")]) ("d1", "location") then 1 else 0)
    ∧ (startsNew (supRun [.ensure ("d1", "location")]) ("d1", "location") = true
        ↔ (alGet (supRun [.ensure ("d1", "location")]).reg ("d1", "location") = none
            ∨ ∃ tid, alGet (supRun [.ensure ("d1", "location")]).reg ("d1", "location") = some tid
                ∧ taskDoneAt (supRun [.ensure ("d1", "location")]) tid = true)) :=
  ensure_poller_single_live_task [.ensure ("d1", "location")] ("d1", "location") 0 0
    (by decide) (by decide)

end DRM
